import Mathlib

/-!
Verification of the CRX container decoder of `uncrx-rs`
(`src/uncrx/helpers.rs`, `src/uncrx/constants.rs`, `src/uncrx/types.rs`).

Shallow embedding conventions:
* A Rust `Vec<u8>` / `&[u8]` is a `List Nat`; each element stands for one
  byte.  No bound is imposed on the elements: every theorem below holds for
  arbitrary naturals, hence in particular for real bytes `< 256`.
* `anyhow::Result<T>` is `Except ParseError T`.  The two error strings the
  decoder produces are the constructors `tooShort` ("Data is too short",
  raised by `get_slice_from_range`) and `invalidCrx` ("Invalid CRX file").
* Rust operations that can abort the process are modelled explicitly by the
  `runtimePanic` outcome: slice indexing `data[a..b]` / `data[a..]` panics
  when the range does not lie inside the buffer (`index_slice`,
  `index_slice_from`), and `u32` addition panics on overflow as checked in
  the dev/test profile under which the test-suite of the crate runs
  (`u32_add`); in a release build the addition would wrap instead, and
  either way the decode does not return the natural-sum payload offset.
* `u32::from_le_bytes` on a 4-byte slice is `from_le_bytes`.
-/

namespace Uncrx

/-- `CRX_MAGIC_VALUE` from `src/uncrx/constants.rs`: the fixed 4-byte magic
marker `[0x43, 0x72, 0x32, 0x34]` ("Cr24"). -/
def CRX_MAGIC_VALUE : List Nat := [0x43, 0x72, 0x32, 0x34]

/-- The ways a decode run can terminate other than success: the two
`anyhow` errors of the source, plus an explicit marker for a Rust panic
(out-of-range slice indexing or checked-`u32` overflow). -/
inductive ParseError where
  | invalidCrx
  | tooShort
  | runtimePanic
deriving DecidableEq

/-- `CrxExtension` from `src/uncrx/types.rs`. -/
structure CrxExtension where
  version : Nat
  public_key : List Nat
  signature : Option (List Nat)
  zip : List Nat
deriving DecidableEq

/-- Decidable equality of decode outcomes, so that concrete runs of the
decoder can be checked by `decide`. -/
instance instDecEqExcept {ε α : Type} [DecidableEq ε] [DecidableEq α] :
    DecidableEq (Except ε α) := fun a b =>
  match a, b with
  | .error e1, .error e2 =>
      if h : e1 = e2 then isTrue (by rw [h])
      else isFalse fun hc => h (Except.error.inj hc)
  | .error _, .ok _ => isFalse fun hc => Except.noConfusion hc
  | .ok _, .error _ => isFalse fun hc => Except.noConfusion hc
  | .ok v1, .ok v2 =>
      if h : v1 = v2 then isTrue (by rw [h])
      else isFalse fun hc => h (Except.ok.inj hc)

/-- `u32::from_le_bytes` applied to a 4-byte slice (all the slices it is
applied to in the source have length exactly 4). -/
def from_le_bytes (bs : List Nat) : Nat :=
  match bs with
  | [b0, b1, b2, b3] => b0 + 2 ^ 8 * b1 + 2 ^ 16 * b2 + 2 ^ 24 * b3
  | _ => 0

/-- `u32::to_le_bytes`: the 4 little-endian bytes of `n` (used to build
concrete buffers carrying a given field value). -/
def to_le_bytes (n : Nat) : List Nat :=
  [n % 2 ^ 8, n / 2 ^ 8 % 2 ^ 8, n / 2 ^ 16 % 2 ^ 8, n / 2 ^ 24 % 2 ^ 8]

/-- `get_slice_from_range` from `src/uncrx/helpers.rs`: errors with
"Data is too short" when `data.len() < range.end`, otherwise returns
`&data[range]`.  All call sites use constant ranges `a..b` with `a ≤ b`,
so after the length check the indexing cannot panic. -/
def get_slice_from_range (data : List Nat) (a b : Nat) :
    Except ParseError (List Nat) :=
  if data.length < b then .error .tooShort
  else .ok ((data.drop a).take (b - a))

/-- `get_crx_header`: the magic-marker bytes `[0,4)`. -/
def get_crx_header (data : List Nat) : Except ParseError (List Nat) :=
  get_slice_from_range data 0 4

/-- `get_crx_version`: little-endian `u32` at `[4,8)` (`CRX_VERSION_RANGE`). -/
def get_crx_version (data : List Nat) : Except ParseError Nat :=
  (get_slice_from_range data 4 8).map from_le_bytes

/-- `is_valid_crx`: compares the header against `CRX_MAGIC_VALUE`
(always an `Ok` in the source). -/
def is_valid_crx (magic : List Nat) : Except ParseError Bool :=
  .ok (magic == CRX_MAGIC_VALUE)

/-- `get_public_key_length`: little-endian `u32` at `[8,12)`
(`PUBLIC_KEY_LENGTH_RANGE`). -/
def get_public_key_length (data : List Nat) : Except ParseError Nat :=
  (get_slice_from_range data 8 12).map from_le_bytes

/-- `get_signature_key_length`: little-endian `u32` at `[12,16)`
(`SIGNATURE_LENGTH_RANGE`). -/
def get_signature_key_length (data : List Nat) : Except ParseError Nat :=
  (get_slice_from_range data 12 16).map from_le_bytes

/-- Rust slice indexing `&data[a..b]`: panics unless `a ≤ b ≤ data.len()`. -/
def index_slice (data : List Nat) (a b : Nat) : Except ParseError (List Nat) :=
  if a ≤ b ∧ b ≤ data.length then .ok ((data.drop a).take (b - a))
  else .error .runtimePanic

/-- Rust slice indexing `&data[a..]`: panics unless `a ≤ data.len()`. -/
def index_slice_from (data : List Nat) (a : Nat) :
    Except ParseError (List Nat) :=
  if a ≤ data.length then .ok (data.drop a) else .error .runtimePanic

/-- `u32` addition with the dev-profile overflow check: panics when the
mathematical sum does not fit in 32 bits. -/
def u32_add (x y : Nat) : Except ParseError Nat :=
  if x + y < 2 ^ 32 then .ok (x + y) else .error .runtimePanic

/-- `parse_crx` from `src/uncrx/helpers.rs`, step for step (each
`Except.bind` is one use of the Rust `?` operator): header read and magic
check, version and public-key-length reads,
`public_key = data[16..16 + public_key_length]`, signature length (read
from `[12,16)` only when `version ≤ 2`, otherwise `0`), the
source `match signature_key_length` (`0 => None`, `_ => Some(...)`, rendered here
as the equivalent zero test) producing the optional signature slice
`data[16..16 + signature_key_length]`, the `u32` offset arithmetic
`header + signature_key_length + public_key_length` (two checked
additions), and the payload slice `data[zip_start_offset..]`. -/
def parse_crx (data : List Nat) : Except ParseError CrxExtension :=
  Except.bind (get_crx_header data) fun header =>
  Except.bind (is_valid_crx header) fun is_valid =>
  if ! is_valid then Except.error ParseError.invalidCrx else
  Except.bind (get_crx_version data) fun version =>
  Except.bind (get_public_key_length data) fun public_key_length =>
  Except.bind (index_slice data 16 (16 + public_key_length)) fun public_key =>
  Except.bind
    (if version ≤ 2 then get_signature_key_length data else Except.ok 0)
    fun signature_key_length =>
  Except.bind
    (if signature_key_length = 0 then Except.ok none
     else (index_slice data 16 (16 + signature_key_length)).map some)
    fun signature =>
  let header_size : Nat := if version ≤ 2 then 16 else 12
  Except.bind (u32_add header_size signature_key_length) fun partial_offset =>
  Except.bind (u32_add partial_offset public_key_length) fun zip_start_offset =>
  Except.bind (index_slice_from data zip_start_offset) fun zip =>
  Except.ok { version := version, public_key := public_key,
              signature := signature, zip := zip }

/-- The little-endian `u32` stored at bytes `[off, off + 4)` of the buffer
(pure accessor used to state the claims). -/
def readLE32 (data : List Nat) (off : Nat) : Nat :=
  from_le_bytes ((data.drop off).take 4)

/-- The byte range `[a, b)` of the buffer (pure accessor used to state the
claims). -/
def byteRange (data : List Nat) (a b : Nat) : List Nat :=
  (data.drop a).take (b - a)

/-- The signature length the decoder uses: the little-endian `u32` at
`[12,16)` when the format version is `≤ 2`, and `0` otherwise
(lines 73–77 of `src/uncrx/helpers.rs`). -/
def sig_length (data : List Nat) : Nat :=
  if readLE32 data 4 ≤ 2 then readLE32 data 12 else 0

/-- The header size the decoder uses: `16` when the format version is
`≤ 2`, and `12` otherwise (line 84 of `src/uncrx/helpers.rs`). -/
def crx_header_size (data : List Nat) : Nat :=
  if readLE32 data 4 ≤ 2 then 16 else 12

/-- A 16-byte buffer with a valid magic marker, the given format version
at `[4,8)`, and zero public-key and signature lengths: used to show that
every `u32` version value decodes successfully. -/
def versionProbe (v : Nat) : List Nat :=
  CRX_MAGIC_VALUE ++ to_le_bytes v ++ [0, 0, 0, 0, 0, 0, 0, 0]

/-- A buffer of length exactly `2 ^ 32` (realizable as a 4 GiB file on a
64-bit machine): valid magic, version `0`, public-key length `0`,
signature length `0xFFFFFFF0 = 2 ^ 32 - 16`, followed by that many
signature bytes.  Every slice of the decoder fits, but the `u32` offset
sum `16 + signature_length` is exactly `2 ^ 32` and overflows. -/
def hugeBuffer : List Nat :=
  [0x43, 0x72, 0x32, 0x34, 0, 0, 0, 0, 0, 0, 0, 0,
   0xF0, 0xFF, 0xFF, 0xFF] ++ List.replicate (2 ^ 32 - 16) 0

/-! ### Evaluation lemmas for the individual decode steps -/

theorem from_le_bytes_to_le_bytes (n : Nat) :
    from_le_bytes (to_le_bytes n) = n % 2 ^ 32 := by
  unfold from_le_bytes to_le_bytes
  simp only
  omega

theorem bind_ok {α β : Type} (a : α) (f : α → Except ParseError β) :
    Except.bind (Except.ok a) f = f a := rfl

theorem bind_error {α β : Type} (e : ParseError)
    (f : α → Except ParseError β) :
    Except.bind (Except.error e) f = Except.error e := rfl

theorem get_slice_from_range_ok {data : List Nat} {a b : Nat}
    (h : b ≤ data.length) :
    get_slice_from_range data a b = .ok ((data.drop a).take (b - a)) := by
  unfold get_slice_from_range
  rw [if_neg (by omega)]

theorem get_slice_from_range_tooShort {data : List Nat} {a b : Nat}
    (h : data.length < b) :
    get_slice_from_range data a b = .error .tooShort := by
  unfold get_slice_from_range
  rw [if_pos h]

theorem get_crx_header_ok {data : List Nat} (h : 4 ≤ data.length) :
    get_crx_header data = .ok (data.take 4) := by
  unfold get_crx_header
  rw [get_slice_from_range_ok h]
  simp

theorem get_crx_version_ok {data : List Nat} (h : 8 ≤ data.length) :
    get_crx_version data = .ok (readLE32 data 4) := by
  unfold get_crx_version
  rw [get_slice_from_range_ok h]
  rfl

theorem get_public_key_length_ok {data : List Nat} (h : 12 ≤ data.length) :
    get_public_key_length data = .ok (readLE32 data 8) := by
  unfold get_public_key_length
  rw [get_slice_from_range_ok h]
  rfl

theorem get_signature_key_length_ok {data : List Nat} (h : 16 ≤ data.length) :
    get_signature_key_length data = .ok (readLE32 data 12) := by
  unfold get_signature_key_length
  rw [get_slice_from_range_ok h]
  rfl

theorem is_valid_crx_true {m : List Nat} (h : m = CRX_MAGIC_VALUE) :
    is_valid_crx m = .ok true := by
  unfold is_valid_crx
  simp [h]

theorem is_valid_crx_false {m : List Nat} (h : m ≠ CRX_MAGIC_VALUE) :
    is_valid_crx m = .ok false := by
  unfold is_valid_crx
  simp [h]

theorem index_slice_ok {data : List Nat} {a b : Nat} (h1 : a ≤ b)
    (h2 : b ≤ data.length) :
    index_slice data a b = .ok (byteRange data a b) := by
  unfold index_slice byteRange
  rw [if_pos ⟨h1, h2⟩]

theorem index_slice_panic {data : List Nat} {a b : Nat}
    (h : data.length < b) :
    index_slice data a b = .error .runtimePanic := by
  unfold index_slice
  rw [if_neg (by omega)]

theorem index_slice_from_ok {data : List Nat} {a : Nat}
    (h : a ≤ data.length) :
    index_slice_from data a = .ok (data.drop a) := by
  unfold index_slice_from
  rw [if_pos h]

theorem index_slice_from_panic {data : List Nat} {a : Nat}
    (h : data.length < a) :
    index_slice_from data a = .error .runtimePanic := by
  unfold index_slice_from
  rw [if_neg (by omega)]

theorem u32_add_ok {x y : Nat} (h : x + y < 2 ^ 32) :
    u32_add x y = .ok (x + y) := by
  unfold u32_add
  rw [if_pos h]

theorem u32_add_panic {x y : Nat} (h : 2 ^ 32 ≤ x + y) :
    u32_add x y = .error .runtimePanic := by
  unfold u32_add
  rw [if_neg (by omega)]

theorem length_ge_four_of_magic {data : List Nat}
    (h : data.take 4 = CRX_MAGIC_VALUE) : 4 ≤ data.length := by
  have hl := congrArg List.length h
  simp [CRX_MAGIC_VALUE, List.length_take] at hl
  omega

/-! ### Branch evaluation of `parse_crx` -/

theorem parse_crx_len_lt_four {data : List Nat} (h : data.length < 4) :
    parse_crx data = .error .tooShort := by
  unfold parse_crx get_crx_header
  rw [get_slice_from_range_tooShort h, bind_error]

theorem parse_crx_bad_magic {data : List Nat} (h4 : 4 ≤ data.length)
    (hm : data.take 4 ≠ CRX_MAGIC_VALUE) :
    parse_crx data = .error .invalidCrx := by
  unfold parse_crx
  simp only [get_crx_header_ok h4, bind_ok, is_valid_crx_false hm,
    Bool.not_false, if_true]

theorem get_crx_version_tooShort {data : List Nat} (h : data.length < 8) :
    get_crx_version data = .error .tooShort := by
  unfold get_crx_version
  rw [get_slice_from_range_tooShort h]
  rfl

theorem get_public_key_length_tooShort {data : List Nat}
    (h : data.length < 12) :
    get_public_key_length data = .error .tooShort := by
  unfold get_public_key_length
  rw [get_slice_from_range_tooShort h]
  rfl

theorem parse_crx_magic_short {data : List Nat}
    (hm : data.take 4 = CRX_MAGIC_VALUE) (h12 : data.length < 12) :
    parse_crx data = .error .tooShort := by
  have h4 : 4 ≤ data.length := length_ge_four_of_magic hm
  unfold parse_crx
  simp only [get_crx_header_ok h4, bind_ok, is_valid_crx_true hm,
    Bool.not_true, Bool.false_eq_true, if_false]
  by_cases h8 : data.length < 8
  · rw [get_crx_version_tooShort h8, bind_error]
  · rw [get_crx_version_ok (by omega), bind_ok,
      get_public_key_length_tooShort h12, bind_error]

theorem parse_crx_after_headers {data : List Nat}
    (hm : data.take 4 = CRX_MAGIC_VALUE) (h12 : 12 ≤ data.length) :
    parse_crx data =
      (Except.bind (index_slice data 16 (16 + readLE32 data 8))
        fun public_key =>
      Except.bind (if readLE32 data 4 ≤ 2 then get_signature_key_length data
                   else Except.ok 0)
        fun signature_key_length =>
      Except.bind (if signature_key_length = 0 then Except.ok none
                   else (index_slice data 16
                          (16 + signature_key_length)).map some)
        fun signature =>
      Except.bind (u32_add (if readLE32 data 4 ≤ 2 then 16 else 12)
                    signature_key_length)
        fun partial_offset =>
      Except.bind (u32_add partial_offset (readLE32 data 8))
        fun zip_start_offset =>
      Except.bind (index_slice_from data zip_start_offset)
        fun zip =>
      Except.ok ⟨readLE32 data 4, public_key, signature, zip⟩) := by
  have h4 : 4 ≤ data.length := length_ge_four_of_magic hm
  unfold parse_crx
  simp only [get_crx_header_ok h4, bind_ok, is_valid_crx_true hm,
    Bool.not_true, Bool.false_eq_true, if_false,
    get_crx_version_ok (show 8 ≤ data.length by omega), bind_ok,
    get_public_key_length_ok h12, bind_ok]

/-- Complete evaluation of `parse_crx` on a buffer whose magic marker and
first three header reads go through: every later step is decided by the
listed range and overflow conditions. -/
theorem parse_crx_eval {data : List Nat}
    (hm : data.take 4 = CRX_MAGIC_VALUE) (h12 : 12 ≤ data.length) :
    parse_crx data =
      if 16 + readLE32 data 8 ≤ data.length then
        if readLE32 data 4 ≤ 2 then
          if readLE32 data 12 = 0 then
            if 16 + readLE32 data 8 < 2 ^ 32 then
              .ok ⟨readLE32 data 4, byteRange data 16 (16 + readLE32 data 8),
                   none, data.drop (16 + readLE32 data 8)⟩
            else .error .runtimePanic
          else
            if 16 + readLE32 data 12 ≤ data.length then
              if 16 + readLE32 data 12 < 2 ^ 32 then
                if 16 + readLE32 data 12 + readLE32 data 8 < 2 ^ 32 then
                  if 16 + readLE32 data 12 + readLE32 data 8 ≤
                      data.length then
                    .ok ⟨readLE32 data 4,
                         byteRange data 16 (16 + readLE32 data 8),
                         some (byteRange data 16 (16 + readLE32 data 12)),
                         data.drop
                           (16 + readLE32 data 12 + readLE32 data 8)⟩
                  else .error .runtimePanic
                else .error .runtimePanic
              else .error .runtimePanic
            else .error .runtimePanic
        else
          if 12 + readLE32 data 8 < 2 ^ 32 then
            .ok ⟨readLE32 data 4, byteRange data 16 (16 + readLE32 data 8),
                 none, data.drop (12 + readLE32 data 8)⟩
          else .error .runtimePanic
      else .error .runtimePanic := by
  rw [parse_crx_after_headers hm h12]
  by_cases hk : 16 + readLE32 data 8 ≤ data.length
  · rw [if_pos hk]
    simp only [index_slice_ok (show (16:Nat) ≤ 16 + readLE32 data 8 by omega)
      hk, bind_ok]
    by_cases hv : readLE32 data 4 ≤ 2
    · simp only [if_pos hv,
        get_signature_key_length_ok (show 16 ≤ data.length by omega),
        bind_ok]
      by_cases hs : readLE32 data 12 = 0
      · simp only [hs, eq_self_iff_true, if_true,
          u32_add_ok (show 16 + 0 < 2 ^ 32 by norm_num), bind_ok,
          Nat.add_zero]
        by_cases h16k : 16 + readLE32 data 8 < 2 ^ 32
        · rw [if_pos h16k, u32_add_ok h16k, bind_ok,
            index_slice_from_ok hk, bind_ok]
        · rw [if_neg h16k, u32_add_panic (by omega), bind_error]
      · simp only [if_neg hs]
        by_cases hsl : 16 + readLE32 data 12 ≤ data.length
        · rw [if_pos hsl]
          simp only
            [index_slice_ok (show (16:Nat) ≤ 16 + readLE32 data 12 by omega)
              hsl]
          simp only [Except.map, bind_ok]
          by_cases hs32 : 16 + readLE32 data 12 < 2 ^ 32
          · rw [if_pos hs32, u32_add_ok hs32, bind_ok]
            by_cases hsum : 16 + readLE32 data 12 + readLE32 data 8 < 2 ^ 32
            · rw [if_pos hsum, u32_add_ok hsum, bind_ok]
              by_cases hoff :
                  16 + readLE32 data 12 + readLE32 data 8 ≤ data.length
              · rw [if_pos hoff, index_slice_from_ok hoff, bind_ok]
              · rw [if_neg hoff, index_slice_from_panic (by omega),
                  bind_error]
            · rw [if_neg hsum, u32_add_panic (by omega), bind_error]
          · rw [if_neg hs32, u32_add_panic (by omega), bind_error]
        · rw [if_neg hsl]
          simp only [index_slice_panic
            (show data.length < 16 + readLE32 data 12 by omega)]
          simp only [Except.map, bind_error]
    · simp only [if_neg hv, bind_ok, eq_self_iff_true, if_true,
        u32_add_ok (show 12 + 0 < 2 ^ 32 by norm_num), Nat.add_zero]
      by_cases h12k : 12 + readLE32 data 8 < 2 ^ 32
      · rw [if_pos h12k, u32_add_ok h12k, bind_ok,
          index_slice_from_ok (by omega), bind_ok]
      · rw [if_neg h12k, u32_add_panic (by omega), bind_error]
  · rw [if_neg hk, index_slice_panic (by omega), bind_error]

/-- The decode ends in `tooShort` exactly when one of the four
bounds-checked header reads runs past the buffer: before the magic
comparison (length `< 4`), or after a successful magic comparison with
length `< 12`.  (For lengths `≥ 12` with a valid marker, later
out-of-range accesses panic instead.) -/
theorem parse_crx_tooShort_iff (data : List Nat) :
    parse_crx data = .error .tooShort ↔
      data.length < 4 ∨
        (data.take 4 = CRX_MAGIC_VALUE ∧ data.length < 12) := by
  constructor
  · intro h
    by_cases h4 : data.length < 4
    · exact Or.inl h4
    by_cases hm : data.take 4 = CRX_MAGIC_VALUE
    · by_cases h12 : data.length < 12
      · exact Or.inr ⟨hm, h12⟩
      · rw [parse_crx_eval hm (by omega)] at h
        exfalso
        revert h
        split_ifs <;> simp
    · rw [parse_crx_bad_magic (by omega) hm] at h
      exact absurd h (by simp)
  · intro h
    rcases h with h4 | ⟨hm, h12⟩
    · exact parse_crx_len_lt_four h4
    · exact parse_crx_magic_short hm h12

/-- The decode ends in `invalidCrx` exactly when the magic read succeeds
(length `≥ 4`) and the four magic bytes differ from the fixed marker. -/
theorem parse_crx_invalid_iff (data : List Nat) :
    parse_crx data = .error .invalidCrx ↔
      4 ≤ data.length ∧ data.take 4 ≠ CRX_MAGIC_VALUE := by
  constructor
  · intro h
    by_cases h4 : data.length < 4
    · rw [parse_crx_len_lt_four h4] at h
      exact absurd h (by simp)
    by_cases hm : data.take 4 = CRX_MAGIC_VALUE
    · by_cases h12 : data.length < 12
      · rw [parse_crx_magic_short hm h12] at h
        exact absurd h (by simp)
      · rw [parse_crx_eval hm (by omega)] at h
        exfalso
        revert h
        split_ifs <;> simp
    · exact ⟨by omega, hm⟩
  · rintro ⟨h4, hm⟩
    exact parse_crx_bad_magic h4 hm

/-- A panic can only happen past the header reads: with a valid magic
marker on a buffer of length at least 12. -/
theorem parse_crx_panic_facts (data : List Nat)
    (h : parse_crx data = .error .runtimePanic) :
    data.take 4 = CRX_MAGIC_VALUE ∧ 12 ≤ data.length := by
  by_cases h4 : data.length < 4
  · rw [parse_crx_len_lt_four h4] at h
    exact absurd h (by simp)
  by_cases hm : data.take 4 = CRX_MAGIC_VALUE
  · by_cases h12 : data.length < 12
    · rw [parse_crx_magic_short hm h12] at h
      exact absurd h (by simp)
    · exact ⟨hm, by omega⟩
  · rw [parse_crx_bad_magic (by omega) hm] at h
    exact absurd h (by simp)

/-- Success characterization of `parse_crx`: the decode returns `.ok e`
exactly when the magic marker matches, the public-key slice
`[16, 16 + public_key_length)` lies inside the buffer, the payload offset
`header_size + signature_length + public_key_length` fits in a `u32` and
lies inside the buffer — and then `e` is exactly the structure built from
the fixed-offset slices. -/
theorem parse_crx_ok_iff (data : List Nat) (e : CrxExtension) :
    parse_crx data = .ok e ↔
      data.take 4 = CRX_MAGIC_VALUE ∧
      16 + readLE32 data 8 ≤ data.length ∧
      crx_header_size data + sig_length data + readLE32 data 8 ≤
        data.length ∧
      crx_header_size data + sig_length data + readLE32 data 8 < 2 ^ 32 ∧
      e = ⟨readLE32 data 4,
           byteRange data 16 (16 + readLE32 data 8),
           if sig_length data = 0 then none
           else some (byteRange data 16 (16 + sig_length data)),
           data.drop
             (crx_header_size data + sig_length data + readLE32 data 8)⟩ := by
  constructor
  · intro h
    by_cases h4 : data.length < 4
    · rw [parse_crx_len_lt_four h4] at h
      exact absurd h (by simp)
    by_cases hm : data.take 4 = CRX_MAGIC_VALUE
    swap
    · rw [parse_crx_bad_magic (by omega) hm] at h
      exact absurd h (by simp)
    by_cases h12 : data.length < 12
    · rw [parse_crx_magic_short hm h12] at h
      exact absurd h (by simp)
    rw [parse_crx_eval hm (by omega)] at h
    by_cases hk : 16 + readLE32 data 8 ≤ data.length
    swap
    · rw [if_neg hk] at h
      exact absurd h (by simp)
    rw [if_pos hk] at h
    by_cases hv : readLE32 data 4 ≤ 2
    · rw [if_pos hv] at h
      by_cases hs : readLE32 data 12 = 0
      · rw [if_pos hs] at h
        by_cases h16k : 16 + readLE32 data 8 < 2 ^ 32
        swap
        · rw [if_neg h16k] at h
          exact absurd h (by simp)
        rw [if_pos h16k] at h
        have he := (Except.ok.inj h).symm
        refine ⟨hm, hk, ?_, ?_, ?_⟩ <;>
          simp only [crx_header_size, sig_length, if_pos hv, hs,
            Nat.add_zero]
        · exact hk
        · exact h16k
        · rw [he]
          simp
      · rw [if_neg hs] at h
        by_cases hsl : 16 + readLE32 data 12 ≤ data.length
        swap
        · rw [if_neg hsl] at h
          exact absurd h (by simp)
        rw [if_pos hsl] at h
        by_cases hs32 : 16 + readLE32 data 12 < 2 ^ 32
        swap
        · rw [if_neg hs32] at h
          exact absurd h (by simp)
        rw [if_pos hs32] at h
        by_cases hsum : 16 + readLE32 data 12 + readLE32 data 8 < 2 ^ 32
        swap
        · rw [if_neg hsum] at h
          exact absurd h (by simp)
        rw [if_pos hsum] at h
        by_cases hoff : 16 + readLE32 data 12 + readLE32 data 8 ≤ data.length
        swap
        · rw [if_neg hoff] at h
          exact absurd h (by simp)
        rw [if_pos hoff] at h
        have he := (Except.ok.inj h).symm
        refine ⟨hm, hk, ?_, ?_, ?_⟩ <;>
          simp only [crx_header_size, sig_length, if_pos hv]
        · exact hoff
        · exact hsum
        · rw [he, if_neg hs]
    · rw [if_neg hv] at h
      by_cases h12k : 12 + readLE32 data 8 < 2 ^ 32
      swap
      · rw [if_neg h12k] at h
        exact absurd h (by simp)
      rw [if_pos h12k] at h
      have he := (Except.ok.inj h).symm
      refine ⟨hm, hk, ?_, ?_, ?_⟩ <;>
        simp only [crx_header_size, sig_length, if_neg hv, Nat.add_zero]
      · omega
      · exact h12k
      · rw [he]
        simp
  · rintro ⟨hm, hk, hle, hlt, he⟩
    rw [parse_crx_eval hm (by omega), if_pos hk]
    by_cases hv : readLE32 data 4 ≤ 2
    · rw [if_pos hv]
      simp only [crx_header_size, sig_length, if_pos hv] at hle hlt he
      by_cases hs : readLE32 data 12 = 0
      · rw [if_pos hs]
        simp only [hs, Nat.add_zero] at hle hlt he
        rw [if_pos hlt, he]
        simp [hs]
      · rw [if_neg hs, if_pos (show 16 + readLE32 data 12 ≤ data.length by
          omega), if_pos (show 16 + readLE32 data 12 < 2 ^ 32 by omega),
          if_pos hlt, if_pos hle, he]
        simp [hs]
    · rw [if_neg hv]
      simp only [crx_header_size, sig_length, if_neg hv, Nat.add_zero]
        at hle hlt he
      rw [if_pos hlt, he]
      simp

/-! ### Claims -/

/-- C1, counterexample: on the 16-byte buffer with a valid magic marker,
version 2 and public-key length 5, the public-key extraction
`data[16..21]` runs past the buffer and the decode ends in a panic, not
in the `TooShort` error the claim requires for every out-of-range read. -/
theorem parse_crx_pk_read_panics_not_tooShort :
    parse_crx [0x43, 0x72, 0x32, 0x34, 2, 0, 0, 0, 5, 0, 0, 0, 0, 0, 0, 0]
        = .error .runtimePanic ∧
      parse_crx [0x43, 0x72, 0x32, 0x34, 2, 0, 0, 0, 5, 0, 0, 0, 0, 0, 0, 0]
        ≠ .error .tooShort := by
  decide

/-- C1, amended: the decode terminates with success, `invalidCrx`,
`tooShort`, or a panic, and no partial result exists.  `tooShort` arises
exactly from the four bounds-checked header reads (buffer shorter than 4,
or valid magic and buffer shorter than 12); the extractions of
`public_key`, `signature` and the payload, and the `u32` offset addition,
panic instead of returning `tooShort`, and such panics only occur with a
valid magic marker on a buffer of length at least 12. -/
theorem parse_crx_error_classification (data : List Nat) :
    (parse_crx data = .error .tooShort ↔
      data.length < 4 ∨
        (data.take 4 = CRX_MAGIC_VALUE ∧ data.length < 12)) ∧
    (parse_crx data = .error .invalidCrx ↔
      4 ≤ data.length ∧ data.take 4 ≠ CRX_MAGIC_VALUE) ∧
    (parse_crx data = .error .runtimePanic →
      data.take 4 = CRX_MAGIC_VALUE ∧ 12 ≤ data.length) :=
  ⟨parse_crx_tooShort_iff data, parse_crx_invalid_iff data,
   parse_crx_panic_facts data⟩

/-- Witness for the amended C1 at two concrete buffers. -/
theorem parse_crx_error_classification_witness :
    parse_crx [7, 7] = .error .tooShort ∧
      parse_crx [9, 9, 9, 9, 9] = .error .invalidCrx :=
  ⟨(parse_crx_error_classification [7, 7]).1.mpr (Or.inl (by decide)),
   (parse_crx_error_classification [9, 9, 9, 9, 9]).2.1.mpr
     ⟨by decide, by decide⟩⟩

/-- C2, counterexample: a 12-byte buffer with a valid magic marker and
version 2 is shorter than 16 bytes, yet the decode panics at the
public-key extraction (`data[16..16]` with a buffer of length 12) instead
of failing with `TooShort`. -/
theorem parse_crx_len12_panics_not_tooShort :
    List.length [0x43, 0x72, 0x32, 0x34, 2, 0, 0, 0, 0, 0, 0, 0] < 16 ∧
    List.take 4 [0x43, 0x72, 0x32, 0x34, 2, 0, 0, 0, 0, 0, 0, 0]
      = CRX_MAGIC_VALUE ∧
    readLE32 [0x43, 0x72, 0x32, 0x34, 2, 0, 0, 0, 0, 0, 0, 0] 4 ≤ 2 ∧
    parse_crx [0x43, 0x72, 0x32, 0x34, 2, 0, 0, 0, 0, 0, 0, 0]
      = .error .runtimePanic ∧
    parse_crx [0x43, 0x72, 0x32, 0x34, 2, 0, 0, 0, 0, 0, 0, 0]
      ≠ .error .tooShort := by
  decide

/-- C2, amended: on buffers shorter than 16 bytes the decode fails with
`tooShort` while the length is below 12 (or with `invalidCrx` when the
magic read succeeds and mismatches), but for lengths 12–15 with a valid
magic marker it panics at the public-key extraction — the
signature-length read at `[12,16)` is never reached. -/
theorem parse_crx_short_buffer_behavior (data : List Nat)
    (hlt : data.length < 16) :
    (data.length < 4 → parse_crx data = .error .tooShort) ∧
    (4 ≤ data.length → data.take 4 ≠ CRX_MAGIC_VALUE →
      parse_crx data = .error .invalidCrx) ∧
    (data.take 4 = CRX_MAGIC_VALUE → data.length < 12 →
      parse_crx data = .error .tooShort) ∧
    (data.take 4 = CRX_MAGIC_VALUE → 12 ≤ data.length →
      parse_crx data = .error .runtimePanic) := by
  refine ⟨fun h4 => parse_crx_len_lt_four h4,
          fun h4 hm => parse_crx_bad_magic h4 hm,
          fun hm h12 => parse_crx_magic_short hm h12,
          fun hm h12 => ?_⟩
  rw [parse_crx_eval hm h12, if_neg (by omega)]

/-- Witness for the amended C2 on a 13-byte buffer with a valid marker. -/
theorem parse_crx_short_buffer_behavior_witness :
    parse_crx [0x43, 0x72, 0x32, 0x34, 3, 0, 0, 0, 0, 0, 0, 0, 7]
      = .error .runtimePanic :=
  (parse_crx_short_buffer_behavior
      [0x43, 0x72, 0x32, 0x34, 3, 0, 0, 0, 0, 0, 0, 0, 7]
      (by decide)).2.2.2 (by decide) (by decide)

/-- C7: a buffer of length at least 4 whose first four bytes differ from
the magic constant fails with `invalidCrx`, and a buffer whose first four
bytes equal the constant never fails with `invalidCrx`. -/
theorem parse_crx_magic_validation (data : List Nat) :
    (4 ≤ data.length → data.take 4 ≠ CRX_MAGIC_VALUE →
      parse_crx data = .error .invalidCrx) ∧
    (data.take 4 = CRX_MAGIC_VALUE →
      parse_crx data ≠ .error .invalidCrx) := by
  constructor
  · exact fun h4 hm => (parse_crx_invalid_iff data).mpr ⟨h4, hm⟩
  · intro hm hcontra
    exact ((parse_crx_invalid_iff data).mp hcontra).2 hm

/-- Witness for C7 at a bad-magic and a good-magic buffer. -/
theorem parse_crx_magic_validation_witness :
    parse_crx [1, 2, 3, 4] = .error .invalidCrx ∧
      parse_crx [0x43, 0x72, 0x32, 0x34] ≠ .error .invalidCrx :=
  ⟨(parse_crx_magic_validation [1, 2, 3, 4]).1 (by decide) (by decide),
   (parse_crx_magic_validation [0x43, 0x72, 0x32, 0x34]).2 (by decide)⟩

/-- C8: the decoder is a pure function of the byte buffer — two runs on
the same bytes produce equal outcomes, and successful outcomes agree on
every field. -/
theorem parse_crx_deterministic (data : List Nat)
    (r1 r2 : Except ParseError CrxExtension)
    (h1 : parse_crx data = r1) (h2 : parse_crx data = r2) :
    r1 = r2 ∧
      ∀ e1 e2, r1 = .ok e1 → r2 = .ok e2 →
        e1.version = e2.version ∧ e1.public_key = e2.public_key ∧
        e1.signature = e2.signature ∧ e1.zip = e2.zip := by
  subst h1
  subst h2
  refine ⟨rfl, ?_⟩
  intro e1 e2 he1 he2
  rw [he1] at he2
  have he := Except.ok.inj he2
  subst he
  exact ⟨rfl, rfl, rfl, rfl⟩

/-- Witness for C8 on a concrete 21-byte container. -/
theorem parse_crx_deterministic_witness :
    (Except.ok ⟨2, [7, 8], some [7, 8, 9], ([] : List Nat)⟩ :
        Except ParseError CrxExtension) =
      .ok ⟨2, [7, 8], some [7, 8, 9], []⟩ :=
  (parse_crx_deterministic
    [0x43, 0x72, 0x32, 0x34, 2, 0, 0, 0, 2, 0, 0, 0, 3, 0, 0, 0,
     7, 8, 9, 0, 0]
    (.ok ⟨2, [7, 8], some [7, 8, 9], []⟩)
    (.ok ⟨2, [7, 8], some [7, 8, 9], []⟩)
    (by decide) (by decide)).1

/-- C3: on every successful decode, `public_key` is the byte range
`[16, 16 + public_key_length)` of the input, and the signature, when
present, is the byte range `[16, 16 + signature_length)` — the fixed
start offset 16 for both, for every format version. -/
theorem parse_crx_fixed_offset_slices (data : List Nat) (e : CrxExtension)
    (h : parse_crx data = .ok e) :
    e.public_key = byteRange data 16 (16 + readLE32 data 8) ∧
    ∀ sg, e.signature = some sg →
      sg = byteRange data 16 (16 + sig_length data) := by
  obtain ⟨hm, hk, hle, hlt, he⟩ := (parse_crx_ok_iff data e).mp h
  have hpk : e.public_key = byteRange data 16 (16 + readLE32 data 8) := by
    rw [he]
  have hsig : e.signature =
      if sig_length data = 0 then none
      else some (byteRange data 16 (16 + sig_length data)) := by
    rw [he]
  refine ⟨hpk, ?_⟩
  intro sg hsg
  rw [hsig] at hsg
  by_cases hs : sig_length data = 0
  · rw [if_pos hs] at hsg
    exact absurd hsg (by simp)
  · rw [if_neg hs] at hsg
    exact (Option.some.inj hsg).symm

/-- Witness for C3 on a concrete 21-byte container with a signature. -/
theorem parse_crx_fixed_offset_slices_witness :
    CrxExtension.public_key ⟨2, [7, 8], some [7, 8, 9], []⟩ =
      byteRange [0x43, 0x72, 0x32, 0x34, 2, 0, 0, 0, 2, 0, 0, 0, 3, 0, 0, 0,
        7, 8, 9, 0, 0] 16
        (16 + readLE32 [0x43, 0x72, 0x32, 0x34, 2, 0, 0, 0, 2, 0, 0, 0,
          3, 0, 0, 0, 7, 8, 9, 0, 0] 8) ∧
    ([7, 8, 9] : List Nat) =
      byteRange [0x43, 0x72, 0x32, 0x34, 2, 0, 0, 0, 2, 0, 0, 0, 3, 0, 0, 0,
        7, 8, 9, 0, 0] 16
        (16 + sig_length [0x43, 0x72, 0x32, 0x34, 2, 0, 0, 0, 2, 0, 0, 0,
          3, 0, 0, 0, 7, 8, 9, 0, 0]) :=
  ⟨(parse_crx_fixed_offset_slices
      [0x43, 0x72, 0x32, 0x34, 2, 0, 0, 0, 2, 0, 0, 0, 3, 0, 0, 0,
       7, 8, 9, 0, 0]
      ⟨2, [7, 8], some [7, 8, 9], []⟩ (by decide)).1,
   (parse_crx_fixed_offset_slices
      [0x43, 0x72, 0x32, 0x34, 2, 0, 0, 0, 2, 0, 0, 0, 3, 0, 0, 0,
       7, 8, 9, 0, 0]
      ⟨2, [7, 8], some [7, 8, 9], []⟩ (by decide)).2 [7, 8, 9] rfl⟩

/-- C4: on every successful decode the signature length used is the
little-endian `u32` at `[12,16)` for version `≤ 2` and `0` otherwise
(`sig_length`); the signature is absent exactly when that length is 0
(hence always absent for versions `> 2`), and for version 3 the payload
starts at offset `12 + 0 + public_key_length`. -/
theorem parse_crx_signature_length_rule (data : List Nat) (e : CrxExtension)
    (h : parse_crx data = .ok e) :
    (e.signature = none ↔ sig_length data = 0) ∧
    (∀ sg, e.signature = some sg → sg.length = sig_length data) ∧
    (2 < readLE32 data 4 → e.signature = none) ∧
    (readLE32 data 4 = 3 →
      e.zip = data.drop (12 + 0 + readLE32 data 8)) := by
  obtain ⟨hm, hk, hle, hlt, he⟩ := (parse_crx_ok_iff data e).mp h
  have hsig : e.signature =
      if sig_length data = 0 then none
      else some (byteRange data 16 (16 + sig_length data)) := by
    rw [he]
  have hzip : e.zip =
      data.drop (crx_header_size data + sig_length data +
        readLE32 data 8) := by
    rw [he]
  refine ⟨?_, ?_, ?_, ?_⟩
  · rw [hsig]
    by_cases hs : sig_length data = 0
    · simp [hs]
    · simp [hs]
  · intro sg hsg
    rw [hsig] at hsg
    by_cases hs : sig_length data = 0
    · rw [if_pos hs] at hsg
      exact absurd hsg (by simp)
    · rw [if_neg hs] at hsg
      have hsg2 := (Option.some.inj hsg).symm
      subst hsg2
      have hv : readLE32 data 4 ≤ 2 := by
        by_contra hv2
        exact hs (by unfold sig_length; rw [if_neg hv2])
      have hH : crx_header_size data = 16 := by
        unfold crx_header_size
        rw [if_pos hv]
      rw [hH] at hle
      simp only [byteRange, List.length_take, List.length_drop]
      omega
  · intro hv2
    have hs : sig_length data = 0 := by
      unfold sig_length
      rw [if_neg (by omega)]
    rw [hsig, if_pos hs]
  · intro hv3
    have hv2 : ¬ readLE32 data 4 ≤ 2 := by omega
    have hs : sig_length data = 0 := by
      unfold sig_length
      rw [if_neg hv2]
    have hH : crx_header_size data = 12 := by
      unfold crx_header_size
      rw [if_neg hv2]
    rw [hzip, hH, hs]

/-- Witness for C4 on a version-2 container with a signature and on a
version-3 container. -/
theorem parse_crx_signature_length_rule_witness :
    ([7, 8, 9] : List Nat).length =
      sig_length [0x43, 0x72, 0x32, 0x34, 2, 0, 0, 0, 2, 0, 0, 0, 3, 0, 0, 0,
        7, 8, 9, 0, 0] ∧
    CrxExtension.zip ⟨3, [9], none, [0, 0, 0, 9]⟩ =
      List.drop
        (12 + 0 + readLE32 [0x43, 0x72, 0x32, 0x34, 3, 0, 0, 0, 1, 0, 0, 0,
          0, 0, 0, 0, 9] 8)
        [0x43, 0x72, 0x32, 0x34, 3, 0, 0, 0, 1, 0, 0, 0, 0, 0, 0, 0, 9] :=
  ⟨(parse_crx_signature_length_rule
      [0x43, 0x72, 0x32, 0x34, 2, 0, 0, 0, 2, 0, 0, 0, 3, 0, 0, 0,
       7, 8, 9, 0, 0]
      ⟨2, [7, 8], some [7, 8, 9], []⟩ (by decide)).2.1 [7, 8, 9] rfl,
   (parse_crx_signature_length_rule
      [0x43, 0x72, 0x32, 0x34, 3, 0, 0, 0, 1, 0, 0, 0, 0, 0, 0, 0, 9]
      ⟨3, [9], none, [0, 0, 0, 9]⟩ (by decide)).2.2.2 (by decide)⟩

/-- C5: on every successful decode the payload is byte-identical to the
suffix of the input starting at
`header_size + signature_length + public_key_length`, with `header_size`
16 for version `≤ 2` and 12 otherwise. -/
theorem parse_crx_payload_suffix (data : List Nat) (e : CrxExtension)
    (h : parse_crx data = .ok e) :
    e.zip = data.drop
      (crx_header_size data + sig_length data + readLE32 data 8) := by
  obtain ⟨hm, hk, hle, hlt, he⟩ := (parse_crx_ok_iff data e).mp h
  rw [he]

/-- Witness for C5 on a 23-byte container with two trailing payload
bytes. -/
theorem parse_crx_payload_suffix_witness :
    CrxExtension.zip ⟨2, [7, 8], some [7, 8, 9], [77, 88]⟩ =
      List.drop
        (crx_header_size [0x43, 0x72, 0x32, 0x34, 2, 0, 0, 0, 2, 0, 0, 0,
            3, 0, 0, 0, 7, 8, 9, 0, 0, 77, 88] +
          sig_length [0x43, 0x72, 0x32, 0x34, 2, 0, 0, 0, 2, 0, 0, 0,
            3, 0, 0, 0, 7, 8, 9, 0, 0, 77, 88] +
          readLE32 [0x43, 0x72, 0x32, 0x34, 2, 0, 0, 0, 2, 0, 0, 0,
            3, 0, 0, 0, 7, 8, 9, 0, 0, 77, 88] 8)
        [0x43, 0x72, 0x32, 0x34, 2, 0, 0, 0, 2, 0, 0, 0, 3, 0, 0, 0,
         7, 8, 9, 0, 0, 77, 88] :=
  parse_crx_payload_suffix
    [0x43, 0x72, 0x32, 0x34, 2, 0, 0, 0, 2, 0, 0, 0, 3, 0, 0, 0,
     7, 8, 9, 0, 0, 77, 88]
    ⟨2, [7, 8], some [7, 8, 9], [77, 88]⟩ (by decide)

/-- C6, counterexample: a version-3 buffer of length exactly
`16 + public_key_length` (the largest end offset any read requires, here
16 with `public_key_length = 0`) decodes successfully, but its payload is
the 4 bytes `[12, 16)` — not empty as the claim states for versions
`> 2`. -/
theorem parse_crx_boundary_v3_payload_not_empty :
    List.take 4 [0x43, 0x72, 0x32, 0x34, 3, 0, 0, 0, 0, 0, 0, 0, 9, 9, 9, 9]
      = CRX_MAGIC_VALUE ∧
    List.length [0x43, 0x72, 0x32, 0x34, 3, 0, 0, 0, 0, 0, 0, 0, 9, 9, 9, 9]
      = 16 + readLE32
          [0x43, 0x72, 0x32, 0x34, 3, 0, 0, 0, 0, 0, 0, 0, 9, 9, 9, 9] 8 ∧
    (parse_crx
        [0x43, 0x72, 0x32, 0x34, 3, 0, 0, 0, 0, 0, 0, 0, 9, 9, 9, 9]).map
        CrxExtension.zip = .ok [9, 9, 9, 9] ∧
    (parse_crx
        [0x43, 0x72, 0x32, 0x34, 3, 0, 0, 0, 0, 0, 0, 0, 9, 9, 9, 9]).map
        CrxExtension.zip ≠ .ok [] := by
  decide

/-- C6, amended: a buffer with a valid magic marker exactly long enough
for the last required slice decodes successfully; for version `≤ 2`
(buffer length `16 + signature_length + public_key_length`, below `2^32`
so the offset addition cannot overflow) the payload is empty, but for
version `> 2` (buffer length `16 + public_key_length`) the payload is the
4-byte range `[12 + public_key_length, 16 + public_key_length)`, not
empty. -/
theorem parse_crx_boundary_exact_length (data : List Nat) :
    (data.take 4 = CRX_MAGIC_VALUE → readLE32 data 4 ≤ 2 →
      data.length = 16 + readLE32 data 12 + readLE32 data 8 →
      data.length < 2 ^ 32 →
      (parse_crx data).map CrxExtension.zip = .ok []) ∧
    (data.take 4 = CRX_MAGIC_VALUE → 2 < readLE32 data 4 →
      data.length = 16 + readLE32 data 8 →
      12 + readLE32 data 8 < 2 ^ 32 →
      (parse_crx data).map CrxExtension.zip =
          .ok (data.drop (12 + readLE32 data 8)) ∧
        (data.drop (12 + readLE32 data 8)).length = 4) := by
  constructor
  · intro hm hv hlen hlt
    have hS : sig_length data = readLE32 data 12 := by
      unfold sig_length
      rw [if_pos hv]
    have hH : crx_header_size data = 16 := by
      unfold crx_header_size
      rw [if_pos hv]
    have hsum : crx_header_size data + sig_length data + readLE32 data 8 =
        data.length := by omega
    have hok := (parse_crx_ok_iff data
      ⟨readLE32 data 4, byteRange data 16 (16 + readLE32 data 8),
       if sig_length data = 0 then none
       else some (byteRange data 16 (16 + sig_length data)),
       data.drop (crx_header_size data + sig_length data +
         readLE32 data 8)⟩).mpr
      ⟨hm, by omega, by omega, by omega, rfl⟩
    rw [hok]
    show Except.ok (data.drop (crx_header_size data + sig_length data +
      readLE32 data 8)) = Except.ok ([] : List Nat)
    rw [hsum, List.drop_length]
  · intro hm hv hlen hlt
    have hS : sig_length data = 0 := by
      unfold sig_length
      rw [if_neg (by omega)]
    have hH : crx_header_size data = 12 := by
      unfold crx_header_size
      rw [if_neg (by omega)]
    have hok := (parse_crx_ok_iff data
      ⟨readLE32 data 4, byteRange data 16 (16 + readLE32 data 8),
       if sig_length data = 0 then none
       else some (byteRange data 16 (16 + sig_length data)),
       data.drop (crx_header_size data + sig_length data +
         readLE32 data 8)⟩).mpr
      ⟨hm, by omega, by omega, by omega, rfl⟩
    constructor
    · rw [hok]
      show Except.ok (data.drop (crx_header_size data + sig_length data +
        readLE32 data 8)) = _
      rw [hH, hS]
    · rw [List.length_drop]
      omega

/-- Witness for the amended C6: a version-2 boundary container with empty
payload and a version-3 boundary container with a 4-byte payload. -/
theorem parse_crx_boundary_exact_length_witness :
    (parse_crx [0x43, 0x72, 0x32, 0x34, 2, 0, 0, 0, 2, 0, 0, 0, 3, 0, 0, 0,
        7, 8, 9, 0, 0]).map CrxExtension.zip = .ok [] ∧
    (parse_crx [0x43, 0x72, 0x32, 0x34, 3, 0, 0, 0, 1, 0, 0, 0, 0, 0, 0, 0,
        9]).map CrxExtension.zip =
        .ok (List.drop
          (12 + readLE32 [0x43, 0x72, 0x32, 0x34, 3, 0, 0, 0, 1, 0, 0, 0,
            0, 0, 0, 0, 9] 8)
          [0x43, 0x72, 0x32, 0x34, 3, 0, 0, 0, 1, 0, 0, 0, 0, 0, 0, 0, 9]) :=
  ⟨(parse_crx_boundary_exact_length
      [0x43, 0x72, 0x32, 0x34, 2, 0, 0, 0, 2, 0, 0, 0, 3, 0, 0, 0,
       7, 8, 9, 0, 0]).1 (by decide) (by decide) (by decide) (by decide),
   ((parse_crx_boundary_exact_length
      [0x43, 0x72, 0x32, 0x34, 3, 0, 0, 0, 1, 0, 0, 0, 0, 0, 0, 0, 9]).2
      (by decide) (by decide) (by decide) (by decide)).1⟩

/-- C9, counterexample: a buffer of length exactly `2 ^ 32` with valid
magic, version 0, public-key length 0 and signature length
`2 ^ 32 - 16` satisfies the premise of the claim,
`length ≥ 16 + signature_length + public_key_length`, yet the decode
panics — the checked `u32` addition `16 + signature_length` is exactly
`2 ^ 32` — instead of succeeding. -/
theorem parse_crx_huge_sum_overflow :
    hugeBuffer.take 4 = CRX_MAGIC_VALUE ∧
    readLE32 hugeBuffer 4 ≤ 2 ∧
    16 + readLE32 hugeBuffer 12 + readLE32 hugeBuffer 8 ≤
      hugeBuffer.length ∧
    parse_crx hugeBuffer = .error .runtimePanic := by
  have hlen : hugeBuffer.length = 4294967296 := by
    unfold hugeBuffer
    rw [List.length_append, List.length_replicate]
    norm_num
  have hm : hugeBuffer.take 4 = CRX_MAGIC_VALUE := rfl
  have hv : readLE32 hugeBuffer 4 = 0 := rfl
  have hk : readLE32 hugeBuffer 8 = 0 := rfl
  have hs : readLE32 hugeBuffer 12 = 4294967280 := rfl
  refine ⟨hm, by rw [hv]; omega, by rw [hs, hk, hlen], ?_⟩
  rw [parse_crx_eval hm (by rw [hlen]; norm_num)]
  rw [hv, hk, hs, hlen]
  norm_num

/-- C9, amended: with a valid magic marker, the decode succeeds whenever
the buffer length covers `16 + signature_length + public_key_length`
(version `≤ 2`) or `16 + public_key_length` (version `> 2`) — provided
additionally that the payload offset fits in a `u32`
(`16 + signature_length + public_key_length < 2 ^ 32`, respectively
`12 + public_key_length < 2 ^ 32`); otherwise the checked offset addition
overflows and the decode panics instead. -/
theorem parse_crx_success_sufficient (data : List Nat) :
    (data.take 4 = CRX_MAGIC_VALUE → readLE32 data 4 ≤ 2 →
      16 + readLE32 data 12 + readLE32 data 8 ≤ data.length →
      16 + readLE32 data 12 + readLE32 data 8 < 2 ^ 32 →
      parse_crx data = .ok ⟨readLE32 data 4,
        byteRange data 16 (16 + readLE32 data 8),
        if readLE32 data 12 = 0 then none
        else some (byteRange data 16 (16 + readLE32 data 12)),
        data.drop (16 + readLE32 data 12 + readLE32 data 8)⟩) ∧
    (data.take 4 = CRX_MAGIC_VALUE → 2 < readLE32 data 4 →
      16 + readLE32 data 8 ≤ data.length →
      12 + readLE32 data 8 < 2 ^ 32 →
      parse_crx data = .ok ⟨readLE32 data 4,
        byteRange data 16 (16 + readLE32 data 8), none,
        data.drop (12 + readLE32 data 8)⟩) := by
  constructor
  · intro hm hv hle hlt
    have hS : sig_length data = readLE32 data 12 := by
      unfold sig_length
      rw [if_pos hv]
    have hH : crx_header_size data = 16 := by
      unfold crx_header_size
      rw [if_pos hv]
    have hok := (parse_crx_ok_iff data
      ⟨readLE32 data 4, byteRange data 16 (16 + readLE32 data 8),
       if sig_length data = 0 then none
       else some (byteRange data 16 (16 + sig_length data)),
       data.drop (crx_header_size data + sig_length data +
         readLE32 data 8)⟩).mpr
      ⟨hm, by omega, by omega, by omega, rfl⟩
    rw [hok, hS, hH]
  · intro hm hv hle hlt
    have hS : sig_length data = 0 := by
      unfold sig_length
      rw [if_neg (by omega)]
    have hH : crx_header_size data = 12 := by
      unfold crx_header_size
      rw [if_neg (by omega)]
    have hok := (parse_crx_ok_iff data
      ⟨readLE32 data 4, byteRange data 16 (16 + readLE32 data 8),
       if sig_length data = 0 then none
       else some (byteRange data 16 (16 + sig_length data)),
       data.drop (crx_header_size data + sig_length data +
         readLE32 data 8)⟩).mpr
      ⟨hm, by omega, by omega, by omega, rfl⟩
    rw [hok, hS, hH]
    simp

/-- Witness for the amended C9: a version-1 container with a signature
and a version-3 container, both decoding successfully. -/
theorem parse_crx_success_sufficient_witness :
    parse_crx [0x43, 0x72, 0x32, 0x34, 1, 0, 0, 0, 1, 0, 0, 0, 2, 0, 0, 0,
        5, 6, 7] = .ok ⟨1, [5], some [5, 6], []⟩ ∧
    parse_crx [0x43, 0x72, 0x32, 0x34, 3, 0, 0, 0, 1, 0, 0, 0, 0, 0, 0, 0,
        9] = .ok ⟨3, [9], none, [0, 0, 0, 9]⟩ := by
  constructor
  · have h := (parse_crx_success_sufficient
      [0x43, 0x72, 0x32, 0x34, 1, 0, 0, 0, 1, 0, 0, 0, 2, 0, 0, 0,
       5, 6, 7]).1 (by decide) (by decide) (by decide) (by decide)
    simpa using h
  · have h := (parse_crx_success_sufficient
      [0x43, 0x72, 0x32, 0x34, 3, 0, 0, 0, 1, 0, 0, 0, 0, 0, 0, 0,
       9]).2 (by decide) (by decide) (by decide) (by decide)
    simpa using h

/-- C10: the version field is passed through unvalidated — for every
`u32` value `v` the 16-byte probe buffer carrying `v` decodes
successfully with that version (so no version value is by itself a cause
of failure), and every successful decode returns exactly the
little-endian `u32` at bytes `[4,8)` as its version. -/
theorem parse_crx_version_passthrough (v : Nat) (hv : v < 2 ^ 32) :
    parse_crx (versionProbe v) =
      .ok ⟨v, [], none, if v ≤ 2 then [] else [0, 0, 0, 0]⟩ ∧
    ∀ data e, parse_crx data = .ok e → e.version = readLE32 data 4 := by
  constructor
  · have hm : (versionProbe v).take 4 = CRX_MAGIC_VALUE := rfl
    have hlen : (versionProbe v).length = 16 := rfl
    have hrv : readLE32 (versionProbe v) 4 = v := by
      show from_le_bytes (((versionProbe v).drop 4).take 4) = v
      have hb : ((versionProbe v).drop 4).take 4 = to_le_bytes v := rfl
      rw [hb, from_le_bytes_to_le_bytes, Nat.mod_eq_of_lt hv]
    have hrk : readLE32 (versionProbe v) 8 = 0 := rfl
    have hrs : readLE32 (versionProbe v) 12 = 0 := rfl
    rw [parse_crx_eval hm (by rw [hlen]; omega)]
    rw [hrv, hrk, hrs, hlen]
    by_cases hv2 : v ≤ 2
    · rw [if_pos (by norm_num), if_pos hv2, if_pos rfl,
        if_pos (by norm_num), if_pos hv2]
      rfl
    · rw [if_pos (by norm_num), if_neg hv2, if_pos (by norm_num),
        if_neg hv2]
      rfl
  · intro data e h
    obtain ⟨hm, hk, hle, hlt, he⟩ := (parse_crx_ok_iff data e).mp h
    rw [he]

/-- Witness for C10 at versions 7 and 2. -/
theorem parse_crx_version_passthrough_witness :
    parse_crx (versionProbe 7) = .ok ⟨7, [], none, [0, 0, 0, 0]⟩ ∧
    parse_crx (versionProbe 2) = .ok ⟨2, [], none, []⟩ :=
  ⟨by simpa using (parse_crx_version_passthrough 7 (by norm_num)).1,
   by simpa using (parse_crx_version_passthrough 2 (by norm_num)).1⟩

end Uncrx
